import Mathlib

/-!
Verification of the lazear/threadpool library (src/lib.rs) against its
natural-language specification.

The library is a fixed-size worker pool: ThreadPool::new(count) spawns count
Worker threads that all share one Arc<Mutex<mpsc::Receiver<Message>>>;
ThreadPool::execute sends Message::Work(task) on the channel; the Drop
implementation sends one Message::Terminate per worker and then joins every
worker thread.

The embedding below has three layers, each transliterated from the source:
 - a functional model of the pool value and its lifecycle operations
   (ThreadPool.new, ThreadPool.execute, ThreadPool.drop), where Rust panics
   are modelled by an explicit RustOutcome.panic constructor, distinct from
   returning an error value;
 - a transliteration of one iteration of the worker loop in Worker::new,
   both as an event trace capturing the lexical scope of the MutexGuard and
   as a step function on the try_lock / recv results;
 - a small-step interleaving system for the whole pool (queue of channel
   messages, worker statuses, list of executed task ids), used to prove the
   end-to-end shutdown-drains-all-tasks property.
-/

namespace Threadpool

/-- A message on the control channel, from the Message enum in src/lib.rs:
either a unit of work (the boxed closure is identified by a task id) or the
terminate signal. -/
inductive Message where
  | work (id : Nat)
  | terminate
deriving DecidableEq

/-- The error taxonomy named by the specification (InvalidConfiguration for
construction with count 0, PoolClosed for submission after shutdown). The
source never constructs values of this kind: its failure paths are panics. -/
inductive PoolError where
  | invalidConfiguration
  | poolClosed
deriving DecidableEq

/-- Outcome of calling a Rust function: a returned value, a returned error
value, or a panic. The error constructor exists so that the specification
claims about returned errors can be stated and compared with what the code
does; the functions modelled from src/lib.rs only ever produce ok or panic,
because the source uses assert! and .unwrap() and has no Result in its API. -/
inductive RustOutcome (α : Type) where
  | ok (val : α)
  | error (e : PoolError)
  | panic
deriving DecidableEq

/-- The Worker struct from src/lib.rs: its only field is
thread: Option<JoinHandle<()>>. The JoinHandle is modelled by the spawn
ordinal of the thread. -/
structure Worker where
  thread : Option Nat
deriving DecidableEq

/-- The state of a ThreadPool value together with the channel it owns:
the workers vector, the messages sent and not yet consumed (the mpsc channel
queue), and whether the receiving end is still alive (the workers hold the
only Arc clones of the receiver, so it is alive exactly while at least one
worker thread has not exited). -/
structure PoolSt where
  workers : List Worker
  queue : List Message
  receiverAlive : Bool
deriving DecidableEq

/-- Model of ThreadPool::new (src/lib.rs lines 46-57): assert!(count > 0)
panics when count is 0, producing no pool; otherwise the constructor builds
the channel and collects count workers, each holding a freshly spawned
thread handle. -/
def ThreadPool.new (count : Nat) : RustOutcome PoolSt :=
  if 0 < count then
    RustOutcome.ok
      { workers := (List.range count).map (fun i => { thread := some i })
        queue := []
        receiverAlive := true }
  else
    RustOutcome.panic

/-- Model of ThreadPool::execute (src/lib.rs lines 70-72):
self.sender.send(Message::Work(Box::new(func))).unwrap(). If the receiving
end is alive the message is appended to the channel queue; otherwise send
returns Err and the .unwrap() panics, and the message is not enqueued. -/
def ThreadPool.execute (p : PoolSt) (id : Nat) : RustOutcome PoolSt :=
  if p.receiverAlive then
    RustOutcome.ok { p with queue := p.queue ++ [Message.work id] }
  else
    RustOutcome.panic

/-- An event performed by the Drop implementation: delivering one Terminate
message, or joining the worker thread with the given handle (its spawn
ordinal). -/
inductive DropEvent where
  | sendTerminate
  | joinWorker (handle : Nat)
deriving DecidableEq

/-- The first loop of Drop (src/lib.rs lines 82-84): one Terminate send per
element of the workers vector. -/
def sendEvents (p : PoolSt) : List DropEvent :=
  p.workers.map (fun _ => DropEvent.sendTerminate)

/-- The second loop of Drop (src/lib.rs lines 86-90): for each worker, if
worker.thread.take() yields a handle, join that handle; a worker whose
handle is already None is skipped, so no handle can be joined twice. -/
def joinEvents (p : PoolSt) : List DropEvent :=
  p.workers.filterMap (fun w => w.thread.map DropEvent.joinWorker)

/-- The full event trace of one run of Drop on a pool whose channel is open:
all the Terminate sends of the first loop, then all the joins of the second
loop. -/
def dropEvents (p : PoolSt) : List DropEvent :=
  sendEvents p ++ joinEvents p

/-- Model of the Drop implementation (src/lib.rs lines 81-91). When the
channel is still open, the first loop delivers one Terminate per worker, the
second loop takes and joins every worker thread, and after the joins every
worker thread has exited, so every Arc clone of the receiver has been
dropped: the resulting state has every handle taken, an empty queue (the
workers drained it before exiting) and a dead receiver. When the channel is
already closed, the very first send(Message::Terminate).unwrap() panics: no
message is delivered and no thread is joined, so the event trace is empty. -/
def ThreadPool.drop (p : PoolSt) : RustOutcome PoolSt × List DropEvent :=
  if p.receiverAlive then
    (RustOutcome.ok
      { workers := p.workers.map (fun _ => { thread := none })
        queue := []
        receiverAlive := false },
     dropEvents p)
  else
    (RustOutcome.panic, [])

/-- An atomic event inside one iteration of the worker loop body in
Worker::new (src/lib.rs lines 98-110): acquiring the mutex around the shared
receiver (receiver.try_lock() succeeding), the (blocking) recv() call
returning a message, running the dequeued task (x.call()), and releasing the
mutex (the MutexGuard being dropped). -/
inductive LoopEvent where
  | lockAcquire
  | recvWait
  | runTask
  | lockRelease
deriving DecidableEq

/-- Event trace of one iteration of the worker loop in the branch where
try_lock succeeds and recv() returns Message::Work(x), transcribed from the
lexical structure of src/lib.rs lines 103-109. The MutexGuard produced by
receiver.try_lock() is bound by the outer if-let and is dropped only at the
close of that block, which is after the match arm x.call() has returned;
the recv() call, which blocks while the channel is empty, and the task
execution therefore both happen while the guard is held. -/
def workIterationTrace : List LoopEvent :=
  [LoopEvent.lockAcquire, LoopEvent.recvWait, LoopEvent.runTask, LoopEvent.lockRelease]

/-- Whether, in the work-processing iteration of the worker loop, the given
event happens while the receiver mutex is held: strictly after the guard is
acquired and strictly before it is released. -/
def heldUnderLock (e : LoopEvent) : Bool :=
  decide (workIterationTrace.indexOf LoopEvent.lockAcquire < workIterationTrace.indexOf e) &&
  decide (workIterationTrace.indexOf e < workIterationTrace.indexOf LoopEvent.lockRelease)

/-- What the worker loop does after one iteration of its body: run another
iteration, or break out of the loop (ending the thread). -/
inductive LoopOutcome where
  | again
  | exit
deriving DecidableEq

/-- One iteration of the worker loop body in Worker::new (src/lib.rs lines
100-110), as a function of whether receiver.try_lock() succeeded and of what
recv() produced. Transliterated from the nested if-lets: a failed try_lock
falls through and the loop runs again; a recv() error (channel closed with
no senders) also falls through the inner if-let and the loop runs again;
Message::Work runs the task and the loop continues; only Message::Terminate
reaches break. -/
def loopBodyStep (tryLockOk : Bool) (recvRes : Except Unit Message) : LoopOutcome :=
  if tryLockOk then
    match recvRes with
    | Except.ok (Message.work _) => LoopOutcome.again
    | Except.ok Message.terminate => LoopOutcome.exit
    | Except.error _ => LoopOutcome.again
  else
    LoopOutcome.again

/-- Whether the worker loop, fed the given sequence of iteration inputs
(try_lock result and recv result for each iteration), ever breaks out of the
loop within that sequence. -/
def loopExitsOn : List (Bool × Except Unit Message) → Bool
  | [] => false
  | tr :: rest =>
    match loopBodyStep tr.1 tr.2 with
    | LoopOutcome.exit => true
    | LoopOutcome.again => loopExitsOn rest

/-- Status of one worker thread in the interleaving model: still running its
loop, or exited (its loop ended by break on Terminate). -/
inductive WStatus where
  | running
  | done
deriving DecidableEq

/-- Global state of the pool system in the interleaving model: the messages
currently in the mpsc channel in delivery order, the status of each worker
thread, and the ids of the tasks executed so far, in execution order.
A task id is appended to executed exactly when some worker dequeues its Work
message and runs it via x.call(). -/
structure SysState where
  queue : List Message
  workers : List WStatus
  executed : List Nat
deriving DecidableEq

/-- One atomic transition of the pool system, transcribing the worker loop
of Worker::new. The mutex around the shared receiver makes message
extraction atomic, and mpsc delivers each message to exactly one receive
call, so a transition is: some still-running worker i takes the message at
the head of the channel queue; on Work(id) it runs the task (the id is
appended to executed, the worker keeps looping), on Terminate it breaks out
of its loop (its status becomes done). -/
inductive Step : SysState → SysState → Prop where
  | work (q : List Message) (ws : List WStatus) (ex : List Nat) (i id : Nat)
      (h : ws.get? i = some WStatus.running) :
      Step ⟨Message.work id :: q, ws, ex⟩ ⟨q, ws, ex ++ [id]⟩
  | term (q : List Message) (ws : List WStatus) (ex : List Nat) (i : Nat)
      (h : ws.get? i = some WStatus.running) :
      Step ⟨Message.terminate :: q, ws, ex⟩ ⟨q, ws.set i WStatus.done, ex⟩

/-- The system state at the moment Drop has finished its first loop, for a
pool of n workers with the submitted tasks not yet consumed: the channel
holds the M Work messages (all submitted, hence enqueued, before shutdown)
followed by the n Terminate messages Drop appended, every worker is running,
and nothing has been executed yet. Workers that consumed some of the Work
messages before shutdown correspond to later states of the same system, so
proving from this state covers every interleaving. -/
def initState (n : Nat) (tasks : List Nat) : SysState :=
  { queue := tasks.map Message.work ++ List.replicate n Message.terminate
    workers := List.replicate n WStatus.running
    executed := [] }

/-- Number of workers whose loop is still running. -/
def runningCount (s : SysState) : Nat :=
  s.workers.count WStatus.running

/-- The inductive invariant of the pool system started from initState:
the executed list is a prefix of the submitted task list, the channel holds
exactly the unexecuted remainder of the tasks followed by one Terminate per
still-running worker, and while tasks remain at least one worker is still
running. -/
def Inv (tasks : List Nat) (s : SysState) : Prop :=
  ∃ j, j ≤ tasks.length ∧
    s.executed = tasks.take j ∧
    s.queue = (tasks.drop j).map Message.work ++
      List.replicate (runningCount s) Message.terminate ∧
    (j < tasks.length → 1 ≤ runningCount s)

/-- A task in the model that tracks panics: a task that returns normally, or
a task whose closure panics when called. -/
inductive PTask where
  | normal (id : Nat)
  | panicky (id : Nat)
deriving DecidableEq

/-- A channel message in the panic-tracking model. -/
inductive PMsg where
  | work (t : PTask)
  | terminate
deriving DecidableEq

/-- Status of one worker thread in the panic-tracking model: running its
loop, exited normally via break on Terminate, or dead because a task panic
unwound through the loop closure (Worker::new installs no catch, so the
panic ends the thread). -/
inductive PWorker where
  | running
  | exited
  | dead
deriving DecidableEq

/-- Global state of the pool system in the panic-tracking model; completed
lists the ids of tasks that ran to completion. -/
structure PState where
  queue : List PMsg
  workers : List PWorker
  completed : List Nat
deriving DecidableEq

/-- One atomic transition of the panic-tracking system: a still-running
worker takes the head message. A normal task runs to completion; a panicky
task starts, panics, and the panic unwinds through the loop closure (there
is no catch_unwind in Worker::new), killing the worker thread; Terminate
breaks the loop. Only running workers take messages: a dead worker dequeues
nothing ever again. -/
inductive PStep : PState → PState → Prop where
  | workOk (q : List PMsg) (ws : List PWorker) (ex : List Nat) (i id : Nat)
      (h : ws.get? i = some PWorker.running) :
      PStep ⟨PMsg.work (PTask.normal id) :: q, ws, ex⟩ ⟨q, ws, ex ++ [id]⟩
  | workPanic (q : List PMsg) (ws : List PWorker) (ex : List Nat) (i id : Nat)
      (h : ws.get? i = some PWorker.running) :
      PStep ⟨PMsg.work (PTask.panicky id) :: q, ws, ex⟩ ⟨q, ws.set i PWorker.dead, ex⟩
  | term (q : List PMsg) (ws : List PWorker) (ex : List Nat) (i : Nat)
      (h : ws.get? i = some PWorker.running) :
      PStep ⟨PMsg.terminate :: q, ws, ex⟩ ⟨q, ws.set i PWorker.exited, ex⟩

/-- Whether thread.join().unwrap() in the Drop implementation (src/lib.rs
line 88) panics for a worker in the given final status: join returns Err
exactly when the joined thread panicked, and .unwrap() turns that Err into a
panic of the thread running Drop. -/
def joinUnwrapPanics : PWorker → Bool
  | PWorker.dead => true
  | _ => false

/-- A list whose j-th drop is a cons: j is in range, the (j+1)-th take
appends exactly the head of that cons, and the (j+1)-th drop is its tail. -/
theorem drop_eq_cons_facts {α : Type} {l : List α} {j : Nat} {a : α} {t : List α}
    (h : l.drop j = a :: t) :
    j < l.length ∧ l.take (j + 1) = l.take j ++ [a] ∧ l.drop (j + 1) = t := by
  induction l generalizing j with
  | nil => simp at h
  | cons b l2 ih =>
    cases j with
    | zero =>
      simp only [List.drop_zero] at h
      cases h
      simp
    | succ m =>
      simp only [List.drop_succ_cons] at h
      obtain ⟨h1, h2, h3⟩ := ih h
      refine ⟨by simpa using Nat.succ_lt_succ h1, ?_, ?_⟩
      · simpa [List.take_succ_cons] using h2
      · simpa [List.drop_succ_cons] using h3

/-- Setting a position that holds running to done removes exactly one
occurrence of running from the count. -/
theorem count_set_done {l : List WStatus} :
    ∀ {i : Nat}, l.get? i = some WStatus.running →
      (l.set i WStatus.done).count WStatus.running + 1 = l.count WStatus.running := by
  induction l with
  | nil => intro i h; simp at h
  | cons a t ih =>
    intro i h
    cases i with
    | zero =>
      simp only [List.get?_cons_zero, Option.some.injEq] at h
      subst h
      simp [List.count_cons]
    | succ m =>
      simp only [List.get?_cons_succ] at h
      have := ih h
      simp only [List.set_cons_succ, List.count_cons]
      omega

/-- The invariant holds in the initial state of a pool with at least one
worker. -/
theorem inv_init (n : Nat) (tasks : List Nat) (hn : 1 ≤ n) :
    Inv tasks (initState n tasks) := by
  refine ⟨0, Nat.zero_le _, rfl, ?_, fun _ => ?_⟩
  · simp [initState, runningCount]
  · simpa [initState, runningCount] using hn

/-- The invariant is preserved by every transition of the pool system. -/
theorem inv_step {tasks : List Nat} {s t : SysState} (hstep : Step s t)
    (hinv : Inv tasks s) : Inv tasks t := by
  obtain ⟨j, hj, hex, hq, hrun⟩ := hinv
  cases hstep with
  | work q ws ex i id h =>
    rcases hd : tasks.drop j with _ | ⟨a, rest⟩
    · rw [hd] at hq
      simp only [List.map_nil, List.nil_append] at hq
      rcases hrc : runningCount ⟨Message.work id :: q, ws, ex⟩ with _ | m
      · rw [hrc] at hq; simp at hq
      · rw [hrc] at hq; simp [List.replicate_succ] at hq
    · rw [hd] at hq
      simp only [List.map_cons, List.cons_append, List.cons.injEq, Message.work.injEq] at hq
      obtain ⟨rfl, hq2⟩ := hq
      obtain ⟨hlt, htake, hdrop⟩ := drop_eq_cons_facts hd
      refine ⟨j + 1, hlt, ?_, ?_, ?_⟩
      · simp only [SysState.executed] at hex ⊢
        rw [htake, hex]
      · simp only [SysState.queue]
        rw [hdrop]
        exact hq2
      · intro _
        exact hrun hlt
  | term q ws ex i h =>
    rcases hd : tasks.drop j with _ | ⟨a, rest⟩
    · rw [hd] at hq
      simp only [List.map_nil, List.nil_append] at hq
      have hj2 : j = tasks.length := by
        have := List.drop_eq_nil_iff.mp hd
        omega
      rcases hrc : runningCount ⟨Message.terminate :: q, ws, ex⟩ with _ | m
      · rw [hrc] at hq; simp at hq
      · rw [hrc] at hq
        simp only [List.replicate_succ, List.cons.injEq] at hq
        refine ⟨j, hj, hex, ?_, ?_⟩
        · simp only [SysState.queue]
          rw [hd]
          simp only [List.map_nil, List.nil_append]
          have hrc2 : runningCount ⟨q, ws.set i WStatus.done, ex⟩ = m := by
            have hcount := count_set_done (l := ws) (i := i) h
            simp only [runningCount, SysState.workers] at hrc ⊢
            omega
          rw [hrc2]
          exact hq.2
        · intro hlt
          omega
    · rw [hd] at hq
      simp at hq

/-- The invariant holds in every state reachable from the initial state of a
pool with at least one worker. -/
theorem inv_reachable {n : Nat} {tasks : List Nat} {s : SysState} (hn : 1 ≤ n)
    (h : Relation.ReflTransGen Step (initState n tasks) s) : Inv tasks s := by
  induction h with
  | refl => exact inv_init n tasks hn
  | tail _ hbc ih => exact inv_step hbc ih

/-- C1: for every worker count n with 1 <= n and every list of tasks
submitted before shutdown, in any reachable state of the pool system in
which every worker has exited -- which is what holds once all the joins in
Drop have returned, so exactly when shutdown has returned -- the list of
executed task ids is the submitted task list itself: every submitted task
ran exactly once, no task ran twice and no task was dropped unexecuted.
Tasks are modelled as non-panicking; a panicking task prevents Drop from
returning at all (see the panic-tracking model). -/
theorem shutdown_executes_all_tasks_once (n : Nat) (tasks : List Nat) (s : SysState)
    (hn : 1 ≤ n)
    (hreach : Relation.ReflTransGen Step (initState n tasks) s)
    (hdone : ∀ w ∈ s.workers, w = WStatus.done) :
    s.executed = tasks ∧ ∀ id, s.executed.count id = tasks.count id := by
  obtain ⟨j, hj, hex, hq, hrun⟩ := inv_reachable hn hreach
  have hrc : runningCount s = 0 := by
    rw [runningCount, List.count_eq_zero]
    intro hmem
    exact absurd (hdone _ hmem) (by decide)
  have hj2 : j = tasks.length := by
    rcases Nat.lt_or_ge j tasks.length with hlt | hge
    · have := hrun hlt
      omega
    · omega
  have hall : s.executed = tasks := by
    rw [hex, hj2, List.take_length]
  exact ⟨hall, fun id => by rw [hall]⟩

/-- Witness for C1 at n = 1 with tasks [5, 7]: the explicit interleaving
that executes both tasks and then consumes the Terminate reaches a state
with the single worker done, and the theorem applied there yields that the
executed list is exactly [5, 7]. -/
theorem shutdown_executes_all_tasks_once_witness :
    (⟨[], [WStatus.done], [5, 7]⟩ : SysState).executed = [5, 7] := by
  have h1 : Step (initState 1 [5, 7])
      ⟨[Message.work 7, Message.terminate], [WStatus.running], [5]⟩ :=
    Step.work [Message.work 7, Message.terminate] [WStatus.running] [] 0 5 rfl
  have h2 : Step (⟨[Message.work 7, Message.terminate], [WStatus.running], [5]⟩ : SysState)
      ⟨[Message.terminate], [WStatus.running], [5, 7]⟩ :=
    Step.work [Message.terminate] [WStatus.running] [5] 0 7 rfl
  have h3 : Step (⟨[Message.terminate], [WStatus.running], [5, 7]⟩ : SysState)
      ⟨[], [WStatus.done], [5, 7]⟩ :=
    Step.term [] [WStatus.running] [5, 7] 0 rfl
  have hreach : Relation.ReflTransGen Step (initState 1 [5, 7])
      ⟨[], [WStatus.done], [5, 7]⟩ :=
    Relation.ReflTransGen.head h1 (Relation.ReflTransGen.head h2
      (Relation.ReflTransGen.head h3 Relation.ReflTransGen.refl))
  exact (shutdown_executes_all_tasks_once 1 [5, 7] ⟨[], [WStatus.done], [5, 7]⟩
    (by decide) hreach (by decide)).1

/-- Mapping a constant function over a list yields a replicate of the
list's length. -/
theorem map_const_replicate {α β : Type} (c : β) (l : List α) :
    l.map (fun _ => c) = List.replicate l.length c := by
  induction l with
  | nil => rfl
  | cons a t ih => simp [List.replicate_succ, ih]

/-- filterMap with an everywhere-some function is a map. -/
theorem filterMap_some_map {α β : Type} (f : α → β) (l : List α) :
    l.filterMap (fun a => some (f a)) = l.map f := by
  induction l with
  | nil => rfl
  | cons a t ih => simp [List.filterMap_cons, ih]

/-- filterMap of the join-event extractor over workers whose handles are all
already taken is empty. -/
theorem filterMap_join_none {ws : List Worker} (h : ∀ w ∈ ws, w.thread = none) :
    ws.filterMap (fun w => w.thread.map DropEvent.joinWorker) = [] := by
  induction ws with
  | nil => rfl
  | cons a t ih =>
    have ha := h a (List.mem_cons_self a t)
    have ht := ih (fun w hw => h w (List.mem_cons_of_mem a hw))
    simp [List.filterMap_cons, ha, ht]

/-- A pool whose workers all have their handle already taken produces no
join events: worker.thread.take() yields None for every worker, so the
if-let in the join loop of Drop skips them all. -/
theorem joinEvents_all_taken {p : PoolSt} (h : ∀ w ∈ p.workers, w.thread = none) :
    joinEvents p = [] := by
  rw [joinEvents]
  exact filterMap_join_none h

/-- C2: refuted by the source. In the iteration of the worker loop that
obtains Work(task), both the blocking recv() call and the task execution
x.call() happen strictly between the acquisition of the receiver mutex and
the drop of its guard: the MutexGuard bound by the outer if-let in
Worker::new lives to the end of that block, so exclusive access to the
shared receive endpoint is NOT released before the dequeued task runs, and
IS held for the duration of the blocking wait for the next message. -/
theorem lock_held_during_recv_and_task :
    heldUnderLock LoopEvent.runTask = true ∧
    heldUnderLock LoopEvent.recvWait = true := by
  decide

/-- C3: for a pool built by ThreadPool::new with n workers, the Drop
implementation's event trace is exactly n Terminate sends followed by the
joins of all n worker threads: exactly one Terminate per worker is
enqueued, every send precedes every join, and every one of the n spawned
threads is joined (each join blocking until that thread has exited). -/
theorem drop_sends_n_terminates_then_joins_all (n : Nat) (p : PoolSt)
    (h : ThreadPool.new n = RustOutcome.ok p) :
    (ThreadPool.drop p).2 = List.replicate n DropEvent.sendTerminate ++
      (List.range n).map DropEvent.joinWorker ∧
    (ThreadPool.drop p).2.count DropEvent.sendTerminate = n ∧
    ∀ i, i < n → DropEvent.joinWorker i ∈ (ThreadPool.drop p).2 := by
  rw [ThreadPool.new] at h
  by_cases hn : 0 < n
  · rw [if_pos hn] at h
    cases h
    have h1 : List.map (fun _ => DropEvent.sendTerminate)
        ((List.range n).map (fun i => ({ thread := some i } : Worker))) =
        List.replicate n DropEvent.sendTerminate := by
      rw [map_const_replicate]
      simp
    have h2 : ((List.range n).map (fun i => ({ thread := some i } : Worker))).filterMap
        (fun w => w.thread.map DropEvent.joinWorker) =
        (List.range n).map DropEvent.joinWorker := by
      rw [List.filterMap_map]
      have := filterMap_some_map DropEvent.joinWorker (List.range n)
      simpa [Function.comp] using this
    have htrace : (ThreadPool.drop
        { workers := (List.range n).map (fun i => ({ thread := some i } : Worker))
          queue := []
          receiverAlive := true }).2 =
        List.replicate n DropEvent.sendTerminate ++
          (List.range n).map DropEvent.joinWorker := by
      simp [ThreadPool.drop, dropEvents, sendEvents, joinEvents, h1, h2]
    refine ⟨htrace, ?_, ?_⟩
    · rw [htrace, List.count_append, List.count_replicate_self]
      have hz : ((List.range n).map DropEvent.joinWorker).count DropEvent.sendTerminate = 0 := by
        rw [List.count_eq_zero]
        intro hmem
        obtain ⟨i, _, hi⟩ := List.mem_map.mp hmem
        cases hi
      omega
    · intro i hi
      rw [htrace]
      exact List.mem_append_right _ (List.mem_map.mpr ⟨i, List.mem_range.mpr hi, rfl⟩)
  · rw [if_neg hn] at h
    cases h

/-- Witness for C3 at n = 2: the drop trace of the freshly built two-worker
pool is two Terminate sends followed by the joins of both threads. -/
theorem drop_sends_n_terminates_then_joins_all_witness :
    (ThreadPool.drop
      { workers := [{ thread := some 0 }, { thread := some 1 }]
        queue := []
        receiverAlive := true }).2 =
    List.replicate 2 DropEvent.sendTerminate ++
      (List.range 2).map DropEvent.joinWorker :=
  (drop_sends_n_terminates_then_joins_all 2
    { workers := [{ thread := some 0 }, { thread := some 1 }]
      queue := []
      receiverAlive := true } (by decide)).1

/-- C4 counterexample: constructing with count 0 panics -- the source runs
assert!(count > 0), documented in its own doc comment as a panic -- rather
than returning an InvalidConfiguration error value; the constructor has no
error-returning path at all. -/
theorem new_zero_panics_not_error :
    ThreadPool.new 0 = RustOutcome.panic ∧
    ThreadPool.new 0 ≠ RustOutcome.error PoolError.invalidConfiguration := by
  decide

/-- C4 amended: constructing with worker count 0 always fails by panicking
(the assert), producing no pool; constructing with any count n with 1 <= n
always succeeds and yields a pool owning exactly n workers, each holding a
spawned thread handle. -/
theorem new_zero_fails_new_pos_spawns_n (n : Nat) :
    (n = 0 → ThreadPool.new n = RustOutcome.panic) ∧
    (1 ≤ n → ∃ p, ThreadPool.new n = RustOutcome.ok p ∧ p.workers.length = n ∧
      ∀ w ∈ p.workers, w.thread.isSome = true) := by
  constructor
  · intro h
    subst h
    decide
  · intro hn
    refine ⟨{ workers := (List.range n).map (fun i => ({ thread := some i } : Worker))
              queue := []
              receiverAlive := true }, ?_, ?_, ?_⟩
    · rw [ThreadPool.new, if_pos (show 0 < n from hn)]
    · simp
    · intro w hw
      simp only [List.mem_map] at hw
      obtain ⟨i, _, rfl⟩ := hw
      rfl

/-- Witness for the amended C4 at n = 3. -/
theorem new_zero_fails_new_pos_spawns_n_witness :
    ∃ p, ThreadPool.new 3 = RustOutcome.ok p ∧ p.workers.length = 3 ∧
      ∀ w ∈ p.workers, w.thread.isSome = true :=
  (new_zero_fails_new_pos_spawns_n 3).2 (by decide)

/-- C5 counterexample: in the state a one-worker pool reaches after Drop has
completed (all workers exited, receiver dropped), a further execute call
panics -- the send(...).unwrap() unwraps a SendError -- instead of returning
a PoolClosed error value; the task is not enqueued. In safe Rust the call
cannot even be written, since Drop consumes the pool. -/
theorem execute_after_drop_panics_not_error :
    (ThreadPool.drop
      { workers := [{ thread := some 0 }], queue := [], receiverAlive := true }).1
      = RustOutcome.ok
          { workers := [{ thread := none }], queue := [], receiverAlive := false } ∧
    ThreadPool.execute
      { workers := [{ thread := none }], queue := [], receiverAlive := false } 7
      = RustOutcome.panic ∧
    ThreadPool.execute
      { workers := [{ thread := none }], queue := [], receiverAlive := false } 7
      ≠ RustOutcome.error PoolError.poolClosed := by
  decide

/-- C5 amended: calling execute after shutdown (modelled as any pool state
whose receiving end is gone, which is what Drop leaves behind) panics
rather than returning a PoolClosed error, and has no side effect: no state
in which the task was enqueued is ever produced, so the task is never
executed. -/
theorem execute_after_shutdown_panics (p : PoolSt) (id : Nat)
    (h : p.receiverAlive = false) :
    ThreadPool.execute p id = RustOutcome.panic ∧
    ∀ p2, ThreadPool.execute p id ≠ RustOutcome.ok p2 := by
  rw [ThreadPool.execute, if_neg (by simp [h])]
  exact ⟨rfl, fun p2 hc => by cases hc⟩

/-- Witness for the amended C5 on the concrete post-shutdown one-worker
pool. -/
theorem execute_after_shutdown_panics_witness :
    ThreadPool.execute
      { workers := [{ thread := none }], queue := [], receiverAlive := false } 3
      = RustOutcome.panic :=
  (execute_after_shutdown_panics
    { workers := [{ thread := none }], queue := [], receiverAlive := false } 3 rfl).1

/-- C6: refuted by the source. In a one-worker pool where a panicking task
was submitted, then a normal task, then shutdown enqueued its Terminate:
the worker dequeues the panicking task, the panic unwinds through the loop
closure (Worker::new has no catch), and the worker thread dies. The
resulting state is stuck -- from it, every reachable state still has the
normal task unexecuted and the worker dead -- and Drop's
thread.join().unwrap() on the dead worker panics, so the remaining task is
never executed and shutdown does not complete. -/
theorem panicking_task_starves_later_tasks :
    PStep ⟨[PMsg.work (PTask.panicky 0), PMsg.work (PTask.normal 1), PMsg.terminate],
           [PWorker.running], []⟩
          ⟨[PMsg.work (PTask.normal 1), PMsg.terminate], [PWorker.dead], []⟩ ∧
    (∀ t, Relation.ReflTransGen PStep
        ⟨[PMsg.work (PTask.normal 1), PMsg.terminate], [PWorker.dead], []⟩ t →
        t.completed = [] ∧ t.workers = [PWorker.dead]) ∧
    joinUnwrapPanics PWorker.dead = true := by
  have hstuck : ∀ t, ¬ PStep
      (⟨[PMsg.work (PTask.normal 1), PMsg.terminate], [PWorker.dead], []⟩ : PState) t := by
    intro t h
    cases h with
    | workOk q ws ex i id hh =>
      cases i with
      | zero => simp at hh
      | succ m => simp at hh
  refine ⟨?_, ?_, rfl⟩
  · exact PStep.workPanic [PMsg.work (PTask.normal 1), PMsg.terminate]
      [PWorker.running] [] 0 0 rfl
  · intro t h
    rcases Relation.ReflTransGen.cases_head h with heq | ⟨u, hstep, _⟩
    · rw [← heq]
      exact ⟨rfl, rfl⟩
    · exact absurd hstep (hstuck u)

/-- Witness for C6: applying the stuck-state conjunct to the stuck state
itself. -/
theorem panicking_task_starves_later_tasks_witness :
    (⟨[PMsg.work (PTask.normal 1), PMsg.terminate], [PWorker.dead], []⟩ : PState).completed
      = [] :=
  (panicking_task_starves_later_tasks.2.1 _ Relation.ReflTransGen.refl).1

/-- C7 counterexample: on a one-worker pool, a first Drop succeeds with
trace [send Terminate, join handle 0]; invoking Drop a second time on the
state it left behind panics (the channel is closed, so the very first
send(Terminate).unwrap() fails), contradicting the claim that a second
invocation produces no error or panic. It does, however, deliver no
Terminate and join no thread: its event trace is empty. -/
theorem drop_twice_panics :
    ThreadPool.drop { workers := [{ thread := some 0 }], queue := [], receiverAlive := true }
      = (RustOutcome.ok { workers := [{ thread := none }], queue := [], receiverAlive := false },
         [DropEvent.sendTerminate, DropEvent.joinWorker 0]) ∧
    ThreadPool.drop { workers := [{ thread := none }], queue := [], receiverAlive := false }
      = (RustOutcome.panic, []) := by
  decide

/-- C7 amended: a second run of the shutdown logic on the state a completed
shutdown leaves behind joins no thread a second time (every handle is
already taken, so even the join loop alone would skip all workers) and
delivers no additional Terminate, but it panics at the first Terminate
send because the channel is closed. In Rust the second invocation cannot
actually occur, because Drop consumes the pool. -/
theorem drop_second_time_panics (p : PoolSt) (h : p.receiverAlive = false)
    (hjoined : ∀ w ∈ p.workers, w.thread = none) :
    ThreadPool.drop p = (RustOutcome.panic, []) ∧ joinEvents p = [] := by
  constructor
  · rw [ThreadPool.drop, if_neg (by simp [h])]
  · exact joinEvents_all_taken hjoined

/-- Witness for the amended C7 on the concrete post-shutdown one-worker
pool. -/
theorem drop_second_time_panics_witness :
    ThreadPool.drop { workers := [{ thread := none }], queue := [], receiverAlive := false }
      = (RustOutcome.panic, []) :=
  (drop_second_time_panics
    { workers := [{ thread := none }], queue := [], receiverAlive := false }
    rfl (by decide)).1

/-- C8: refuted by the source. When recv() returns an error (the send
endpoint was dropped before a Terminate was delivered), the inner if-let in
the worker loop simply fails and the loop body falls through to the next
iteration: the loop outcome is again, never exit, and iterating the loop
any number of times against the closed channel never breaks out. The
worker spins forever instead of exiting its loop. -/
theorem worker_spins_forever_on_closed_channel :
    loopBodyStep true (Except.error ()) = LoopOutcome.again ∧
    loopBodyStep true (Except.error ()) ≠ LoopOutcome.exit ∧
    ∀ k : Nat, loopExitsOn (List.replicate k (true, Except.error ())) = false := by
  refine ⟨rfl, by decide, ?_⟩
  intro k
  induction k with
  | zero => rfl
  | succ m ih => simpa [List.replicate_succ, loopExitsOn, loopBodyStep] using ih

/-- Witness for C8: fifty loop iterations against the closed channel and
the worker still has not left its loop. -/
theorem worker_spins_forever_on_closed_channel_witness :
    loopExitsOn (List.replicate 50 (true, Except.error ())) = false :=
  worker_spins_forever_on_closed_channel.2.2 50

/-- C9: execute never returns an error value, for any pool state and task:
its only failure mode is a panic, which happens exactly when the channel
send fails, i.e. when the shared receiver has been dropped because every
worker thread has exited; and on a live pool it enqueues exactly one Work
message wrapping the given task at the tail of the channel queue. -/
theorem execute_never_returns_error (p : PoolSt) (id : Nat) :
    (∀ e, ThreadPool.execute p id ≠ RustOutcome.error e) ∧
    (ThreadPool.execute p id = RustOutcome.panic ↔ p.receiverAlive = false) ∧
    (p.receiverAlive = true →
      ThreadPool.execute p id =
        RustOutcome.ok { p with queue := p.queue ++ [Message.work id] }) := by
  cases hr : p.receiverAlive with
  | false => refine ⟨?_, ?_, ?_⟩ <;> simp [ThreadPool.execute, hr]
  | true => refine ⟨?_, ?_, ?_⟩ <;> simp [ThreadPool.execute, hr]

/-- Witness for C9 on a concrete live one-worker pool: the submitted task
is enqueued as exactly one Work message. -/
theorem execute_never_returns_error_witness :
    ThreadPool.execute
      { workers := [{ thread := some 0 }], queue := [], receiverAlive := true } 9
      = RustOutcome.ok
          { workers := [{ thread := some 0 }], queue := [Message.work 9],
            receiverAlive := true } := by
  have h := (execute_never_returns_error
    { workers := [{ thread := some 0 }], queue := [], receiverAlive := true } 9).2.2 rfl
  simpa using h

/-- C10: a pool built by ThreadPool::new with n workers has a workers
vector of length exactly n, every worker holding a live handle; running
Drop leaves the vector at the same length n with every handle taken
(thread = None); the joins Drop performs are pairwise distinct handles (no
thread is joined twice); and on the post-Drop state the join loop would
take no handle at all, so no second join of any thread can ever happen. -/
theorem workers_fixed_and_joined_once (n : Nat) (p : PoolSt)
    (h : ThreadPool.new n = RustOutcome.ok p) :
    p.workers.length = n ∧
    (∀ w ∈ p.workers, w.thread.isSome = true) ∧
    ∀ p2 evts, ThreadPool.drop p = (RustOutcome.ok p2, evts) →
      p2.workers.length = n ∧ (∀ w ∈ p2.workers, w.thread = none) ∧
      (joinEvents p).Nodup ∧ joinEvents p2 = [] := by
  rw [ThreadPool.new] at h
  by_cases hn : 0 < n
  · rw [if_pos hn] at h
    cases h
    refine ⟨by simp, ?_, ?_⟩
    · intro w hw
      simp only [List.mem_map] at hw
      obtain ⟨i, _, rfl⟩ := hw
      rfl
    · intro p2 evts hd
      rw [ThreadPool.drop] at hd
      simp only [if_true, Prod.mk.injEq] at hd
      obtain ⟨h1, h2⟩ := hd
      injection h1 with h1
      subst h1
      refine ⟨by simp, ?_, ?_, ?_⟩
      · intro w hw
        simp only [List.mem_map] at hw
        obtain ⟨x, _, rfl⟩ := hw
        rfl
      · have hje : joinEvents
            { workers := (List.range n).map (fun i => ({ thread := some i } : Worker))
              queue := []
              receiverAlive := true } = (List.range n).map DropEvent.joinWorker := by
          rw [joinEvents, List.filterMap_map]
          have := filterMap_some_map DropEvent.joinWorker (List.range n)
          simpa [Function.comp] using this
        rw [hje]
        exact (List.nodup_range n).map (fun a b hab => by
          cases hab
          rfl)
      · refine joinEvents_all_taken ?_
        intro w hw
        simp only [List.mem_map] at hw
        obtain ⟨x, _, rfl⟩ := hw
        rfl
  · rw [if_neg hn] at h
    cases h

/-- Witness for C10 at n = 2, instantiating the post-Drop part on the
concrete drop result. -/
theorem workers_fixed_and_joined_once_witness :
    joinEvents
      { workers := [{ thread := none }, { thread := none }], queue := [],
        receiverAlive := false } = [] := by
  have h := workers_fixed_and_joined_once 2
    { workers := [{ thread := some 0 }, { thread := some 1 }], queue := [],
      receiverAlive := true } (by decide)
  exact (h.2.2
    { workers := [{ thread := none }, { thread := none }], queue := [],
      receiverAlive := false }
    [DropEvent.sendTerminate, DropEvent.sendTerminate,
     DropEvent.joinWorker 0, DropEvent.joinWorker 1] (by decide)).2.2.2

end Threadpool
